import Mathlib

/-!
Shallow embedding of `pidlockfile.py` (DeepBind, `deepity/_lockfile`):
a lock represented by a PID file on a filesystem.  Filesystems are modelled
as maps from paths to a file state; Python strings are lists of characters;
Python 2 numbers are a sum of integers and (rational-modelled) floats; the
wall clock and the outcome of each exclusive-create attempt inside
`acquire`'s retry loop are environment-supplied traces.
-/

namespace PidLock

/-- Characters removed by Python's `str.strip()` with no argument. -/
def pySpace (c : Char) : Bool :=
  c == ' ' || c == '\t' || c == '\n' || c == '\r' || c == '\x0b' || c == '\x0c'

/-- Model of `file.readline()` on the whole file content: the characters of
the first line, including its terminating newline when one is present. -/
def readline : List Char → List Char
  | [] => []
  | c :: cs => if c = '\n' then [c] else c :: readline cs

/-- Model of `str.strip()`: drop Python whitespace from both ends. -/
def pyStrip (l : List Char) : List Char :=
  ((l.reverse.dropWhile pySpace).reverse).dropWhile pySpace

/-- Numeric value of a list of decimal digit characters, most significant
digit first (the accumulator loop of base-10 integer parsing). -/
def digitsVal (l : List Char) : ℕ :=
  l.foldl (fun a c => 10 * a + (c.toNat - 48)) 0

/-- Model of Python `int(s)` on an already-stripped base-10 literal: an
optional sign followed by a nonempty run of decimal digits; anything else
raises `ValueError`, modelled as `none`. -/
def pyInt : List Char → Option ℤ
  | [] => none
  | c :: cs =>
    if c = '+' then
      if cs ≠ [] ∧ cs.all Char.isDigit then some (digitsVal cs) else none
    else if c = '-' then
      if cs ≠ [] ∧ cs.all Char.isDigit then some (-(digitsVal cs : ℤ)) else none
    else
      if (c :: cs).all Char.isDigit then some (digitsVal (c :: cs)) else none

/-- State of the lock path: absent, present but not openable for reading
(`open` raises `IOError`), or present with readable content.  A present
file exists for `os.path.exists` and for `O_EXCL` whether or not it is
readable. -/
inductive FileState
  | absent
  | unreadable
  | content (s : List Char)
deriving DecidableEq

/-- A filesystem: the state of every path. -/
def FS := String → FileState

/-- Pointwise update of one path of a filesystem. -/
def FS.update (fs : FS) (p : String) (v : FileState) : FS :=
  fun q => if q = p then v else fs q

/-- Decimal rendering of a nonnegative process id, as `"%(pid)d"` renders
it: the base-10 digits with no sign and no padding. -/
def decimalChars (n : ℕ) : List Char :=
  if n = 0 then ['0'] else ((Nat.digits 10 n).map Nat.digitChar).reverse

/-- The only create failure distinguished at the filesystem level:
`os.open(path, O_CREAT | O_EXCL | O_WRONLY)` raising `EEXIST`.  Other OS
failures of the create step are modelled by the attempt trace fed to
`acquire`. -/
inductive CreateErr
  | eexist
deriving DecidableEq

/-- Model of `write_pid_to_pidfile`: exclusive create of the path, then
write the pid as a decimal line.  Fails with `EEXIST` exactly when the path
already exists in any form. -/
def write_pid_to_pidfile (fs : FS) (p : String) (pid : ℕ) : Except CreateErr FS :=
  if fs p = .absent then
    .ok (fs.update p (.content (decimalChars pid ++ ['\n'])))
  else
    .error .eexist

/-- Model of `read_pid_from_pidfile`: `none` when the file cannot be opened
(absent or any I/O failure); otherwise the first line is read, stripped,
and parsed as a base-10 integer, with `none` again on parse failure. -/
def read_pid_from_pidfile (fs : FS) (p : String) : Option ℤ :=
  match fs p with
  | .absent => none
  | .unreadable => none
  | .content s => pyInt (pyStrip (readline s))

/-- Model of `PIDLockFile.is_locked`: `os.path.exists(path)`. -/
def is_locked (fs : FS) (p : String) : Bool :=
  decide (fs p ≠ .absent)

/-- Model of `PIDLockFile.read_pid`. -/
def read_pid (fs : FS) (p : String) : Option ℤ :=
  read_pid_from_pidfile fs p

/-- Model of `PIDLockFile.i_am_locking`: locked, and `os.getpid()` equals
the value read back from the file. -/
def i_am_locking (fs : FS) (p : String) (mypid : ℕ) : Bool :=
  is_locked fs p && decide (read_pid fs p = some (mypid : ℤ))

/-- Model of `remove_existing_pidfile`.  `osFail` is the environment saying
that `os.remove` raised an `OSError` other than `ENOENT` (permissions and
the like); that error propagates.  `ENOENT` — the path being absent — is
swallowed, leaving the filesystem as it is. -/
def remove_existing_pidfile (fs : FS) (p : String) (osFail : Bool) : Except Unit FS :=
  if osFail then .error ()
  else if fs p = .absent then .ok fs
  else .ok (fs.update p .absent)

/-- Errors a `release` call can raise. -/
inductive ReleaseErr
  | notLocked
  | notMyLock
  | osError
deriving DecidableEq

/-- Model of `PIDLockFile.release`: `NotLocked` when the path is absent,
then `NotMyLock` when the caller is not the perceived owner, otherwise the
removal, whose non-`ENOENT` failures surface. -/
def release (fs : FS) (p : String) (mypid : ℕ) (osFail : Bool) : Except ReleaseErr FS :=
  if is_locked fs p = false then .error .notLocked
  else if i_am_locking fs p mypid = false then .error .notMyLock
  else
    match remove_existing_pidfile fs p osFail with
    | .ok fs' => .ok fs'
    | .error _ => .error .osError

/-- Model of `PIDLockFile.break_lock`: unconditional removal. -/
def break_lock (fs : FS) (p : String) (osFail : Bool) : Except Unit FS :=
  remove_existing_pidfile fs p osFail

/-- A Python 2 number: an `int` or a `float` (floats modelled as exact
rationals). -/
inductive PyNum
  | int (n : ℤ)
  | float (q : ℚ)
deriving DecidableEq

/-- Numeric value of a Python number. -/
def PyNum.val : PyNum → ℚ
  | .int n => n
  | .float q => q

/-- Python 2 `x / 10` on a number: floor division when `x` is an `int`
(`5/10 == 0`), true division when `x` is a `float`. -/
def PyNum.div10 : PyNum → PyNum
  | .int n => .int (Int.fdiv n 10)
  | .float q => .float (q / 10)

/-- Python truthiness of a number: falsy exactly when it equals zero. -/
def PyNum.isFalsy (t : PyNum) : Bool :=
  decide (t.val = 0)

/-- Value passed to `time.sleep` by
`time.sleep(timeout is not None and timeout/10 or 0.1)`:
`0.1` when `timeout` is `None`, otherwise `timeout/10` unless that
division result is falsy (zero), in which case `0.1` again. -/
def sleepInterval : Option PyNum → PyNum
  | none => .float (1 / 10)
  | some t => if (t.div10).isFalsy then .float (1 / 10) else t.div10

/-- Outcome of one exclusive-create attempt inside `acquire`'s loop, as
decided by the environment (other processes, the OS). -/
inductive CreateRes
  | ok
  | errExist
  | errOther
deriving DecidableEq

/-- How a run of `acquire` ends.  `spin` means the fuel ran out with the
loop still retrying (the real loop would still be running). -/
inductive Outcome
  | ok
  | alreadyLocked
  | lockTimeout
  | lockFailed
  | spin
deriving DecidableEq

/-- Result of a bounded run of `acquire`: how it ended and the successive
values slept. -/
structure AcqResult where
  outcome : Outcome
  sleeps : List ℚ
deriving DecidableEq

/-- The retry loop of `PIDLockFile.acquire`.  `attempts i` is the outcome
of the create attempt of iteration `i`; `clock (i+1)` is the `time.time()`
reading taken in iteration `i` (`clock 0` is the reading taken on entry);
`endTime` is the precomputed deadline; `fuel` bounds the number of
iterations modelled. -/
def acquireLoop (timeout : Option PyNum) (endTime : ℚ)
    (attempts : ℕ → CreateRes) (clock : ℕ → ℚ) : ℕ → ℕ → AcqResult
  | _, 0 => ⟨.spin, []⟩
  | i, fuel + 1 =>
    match attempts i with
    | .ok => ⟨.ok, []⟩
    | .errOther => ⟨.lockFailed, []⟩
    | .errExist =>
      match timeout with
      | none =>
        let r := acquireLoop timeout endTime attempts clock (i + 1) fuel
        ⟨r.outcome, (sleepInterval none).val :: r.sleeps⟩
      | some t =>
        if endTime < clock (i + 1) then
          if 0 < t.val then ⟨.lockTimeout, []⟩ else ⟨.alreadyLocked, []⟩
        else
          let r := acquireLoop timeout endTime attempts clock (i + 1) fuel
          ⟨r.outcome, (sleepInterval (some t)).val :: r.sleeps⟩

/-- Model of `PIDLockFile.acquire`: `end_time = time.time()`, extended by
`timeout` when one was given and is positive, then the retry loop. -/
def acquire (timeout : Option PyNum) (attempts : ℕ → CreateRes)
    (clock : ℕ → ℚ) (fuel : ℕ) : AcqResult :=
  let endTime := clock 0 +
    (match timeout with
     | some t => if 0 < t.val then t.val else 0
     | none => 0)
  acquireLoop timeout endTime attempts clock 0 fuel

/-! Helper lemmas about the character-level parsing functions. -/

theorem digitChar_isDigit : ∀ d, d < 10 → (Nat.digitChar d).isDigit = true := by
  decide

theorem digitChar_not_space : ∀ d, d < 10 → pySpace (Nat.digitChar d) = false := by
  decide

theorem digitChar_ne_newline : ∀ d, d < 10 → Nat.digitChar d ≠ '\n' := by
  decide

theorem digitChar_val : ∀ d, d < 10 → (Nat.digitChar d).toNat - 48 = d := by
  decide

theorem readline_no_newline (l : List Char) (h : '\n' ∉ l) : readline l = l := by
  induction l with
  | nil => rfl
  | cons c cs ih =>
    have hc : c ≠ '\n' := fun hh => h (hh ▸ List.mem_cons_self c cs)
    simp only [readline, if_neg hc]
    rw [ih (fun hm => h (List.mem_cons_of_mem c hm))]

theorem readline_append (l rest : List Char) (h : '\n' ∉ l) :
    readline (l ++ '\n' :: rest) = l ++ ['\n'] := by
  induction l with
  | nil => simp [readline]
  | cons c cs ih =>
    have hc : c ≠ '\n' := fun hh => h (hh ▸ List.mem_cons_self c cs)
    simp only [List.cons_append, readline, if_neg hc, List.append_eq]
    rw [ih (fun hm => h (List.mem_cons_of_mem c hm))]

theorem dropWhile_of_none (p : Char → Bool) (l : List Char)
    (h : ∀ c ∈ l, p c = false) : l.dropWhile p = l := by
  cases l with
  | nil => rfl
  | cons c cs => simp [List.dropWhile_cons, h c (List.mem_cons_self c cs)]

theorem pyStrip_of_no_space (l : List Char) (h : ∀ c ∈ l, pySpace c = false) :
    pyStrip l = l := by
  unfold pyStrip
  rw [dropWhile_of_none pySpace l.reverse (fun c hc => h c (List.mem_reverse.mp hc))]
  rw [List.reverse_reverse]
  exact dropWhile_of_none pySpace l h

theorem pyStrip_append_space (l : List Char) (c : Char) (hc : pySpace c = true) :
    pyStrip (l ++ [c]) = pyStrip l := by
  unfold pyStrip
  rw [List.reverse_append]
  simp [List.dropWhile_cons, hc]

theorem digitsVal_append (l : List Char) (c : Char) :
    digitsVal (l ++ [c]) = 10 * digitsVal l + (c.toNat - 48) := by
  simp [digitsVal, List.foldl_append]

theorem digitsVal_rev_map (ds : List ℕ) (h : ∀ d ∈ ds, d < 10) :
    digitsVal ((ds.map Nat.digitChar).reverse) = Nat.ofDigits 10 ds := by
  induction ds with
  | nil => simp [digitsVal, Nat.ofDigits]
  | cons d t ih =>
    have hd : d < 10 := h d (List.mem_cons_self d t)
    have ht : ∀ x ∈ t, x < 10 := fun x hx => h x (List.mem_cons_of_mem d hx)
    simp only [List.map_cons, List.reverse_cons]
    rw [digitsVal_append, ih ht, digitChar_val d hd, Nat.ofDigits_cons]
    ring

theorem pyInt_all_digits (l : List Char) (hne : l ≠ [])
    (hdig : ∀ c ∈ l, c.isDigit = true) :
    pyInt l = some ((digitsVal l : ℕ) : ℤ) := by
  cases l with
  | nil => exact absurd rfl hne
  | cons c cs =>
    have hc : c.isDigit = true := hdig c (List.mem_cons_self c cs)
    have hplus : c ≠ '+' := by
      rintro rfl; exact absurd hc (by decide)
    have hminus : c ≠ '-' := by
      rintro rfl; exact absurd hc (by decide)
    have hall : (c :: cs).all Char.isDigit = true := by
      rw [List.all_eq_true]; exact hdig
    simp [pyInt, hplus, hminus, hall]

theorem decimalChars_digits (n : ℕ) :
    ∀ c ∈ decimalChars n, c.isDigit = true ∧ pySpace c = false ∧ c ≠ '\n' := by
  intro c hc
  unfold decimalChars at hc
  by_cases h0 : n = 0
  · rw [if_pos h0] at hc
    simp at hc
    subst hc
    refine ⟨by decide, by decide, by decide⟩
  · rw [if_neg h0] at hc
    rw [List.mem_reverse, List.mem_map] at hc
    obtain ⟨d, hd, rfl⟩ := hc
    have hlt : d < 10 := Nat.digits_lt_base (by norm_num) hd
    exact ⟨digitChar_isDigit d hlt, digitChar_not_space d hlt,
      digitChar_ne_newline d hlt⟩

theorem digitsVal_decimalChars (n : ℕ) : digitsVal (decimalChars n) = n := by
  unfold decimalChars
  by_cases h0 : n = 0
  · subst h0; decide
  · rw [if_neg h0]
    rw [digitsVal_rev_map (Nat.digits 10 n)
      (fun d hd => Nat.digits_lt_base (by norm_num) hd)]
    exact Nat.ofDigits_digits 10 n

theorem decimalChars_ne_nil (n : ℕ) : decimalChars n ≠ [] := by
  unfold decimalChars
  by_cases h0 : n = 0
  · simp [h0]
  · rw [if_neg h0]
    simp [Nat.digits_ne_nil_iff_ne_zero.mpr h0]

/-- Round trip at the content level: the line written for pid `n` parses
back to `n`. -/
theorem parse_written_line (n : ℕ) :
    pyInt (pyStrip (readline (decimalChars n ++ ['\n']))) = some (n : ℤ) := by
  have hnl : '\n' ∉ decimalChars n := by
    intro hm
    exact (decimalChars_digits n '\n' hm).2.2 rfl
  rw [show decimalChars n ++ ['\n'] = decimalChars n ++ '\n' :: [] from rfl]
  rw [readline_append (decimalChars n) [] hnl]
  rw [pyStrip_append_space (decimalChars n) '\n' (by decide)]
  rw [pyStrip_of_no_space (decimalChars n)
    (fun c hc => (decimalChars_digits n c hc).2.1)]
  rw [pyInt_all_digits (decimalChars n) (decimalChars_ne_nil n)
    (fun c hc => (decimalChars_digits n c hc).1)]
  rw [digitsVal_decimalChars n]

/-! Helper lemmas about the `acquire` retry loop. -/

theorem acquireLoop_none_spin (endTime : ℚ) (attempts : ℕ → CreateRes)
    (clock : ℕ → ℚ) (h : ∀ i, attempts i = .errExist) :
    ∀ fuel i, (acquireLoop none endTime attempts clock i fuel).outcome = .spin := by
  intro fuel
  induction fuel with
  | zero => intro i; rfl
  | succ f ih =>
    intro i
    simp only [acquireLoop, h i]
    exact ih (i + 1)

theorem acquireLoop_pos_never_already (t : PyNum) (ht : 0 < t.val)
    (endTime : ℚ) (attempts : ℕ → CreateRes) (clock : ℕ → ℚ)
    (h : ∀ i, attempts i = .errExist) :
    ∀ fuel i,
      (acquireLoop (some t) endTime attempts clock i fuel).outcome ≠ .alreadyLocked := by
  intro fuel
  induction fuel with
  | zero => intro i; simp [acquireLoop]
  | succ f ih =>
    intro i
    simp only [acquireLoop, h i]
    by_cases hd : endTime < clock (i + 1)
    · simp [hd, ht]
    · simp only [if_neg hd]
      exact ih (i + 1)

theorem acquireLoop_pos_timeout (t : PyNum) (ht : 0 < t.val)
    (endTime : ℚ) (attempts : ℕ → CreateRes) (clock : ℕ → ℚ)
    (h : ∀ i, attempts i = .errExist) :
    ∀ fuel i, (∃ j, j < fuel ∧ endTime < clock (i + j + 1)) →
      (acquireLoop (some t) endTime attempts clock i fuel).outcome = .lockTimeout := by
  intro fuel
  induction fuel with
  | zero =>
    rintro i ⟨j, hj, -⟩
    omega
  | succ f ih =>
    rintro i ⟨j, hj, hcj⟩
    simp only [acquireLoop, h i]
    by_cases hd : endTime < clock (i + 1)
    · simp [hd, ht]
    · simp only [if_neg hd]
      have hj0 : j ≠ 0 := by
        rintro rfl
        exact hd (by simpa using hcj)
      refine ih (i + 1) ⟨j - 1, by omega, ?_⟩
      have harith : i + 1 + (j - 1) + 1 = i + j + 1 := by omega
      rw [harith]
      exact hcj

/-! The claims. -/

/-- C1: after a process with id N successfully acquires the lock on an
absent path (its exclusive create succeeds and writes N as a decimal
line), `is_locked` is true, `i_am_locking` is true for that process, and
`read_pid` parses the written line back to N. -/
theorem claim_C1 (fs : FS) (p : String) (pid : ℕ) (h : fs p = .absent) :
    ∃ fs', write_pid_to_pidfile fs p pid = .ok fs' ∧
      is_locked fs' p = true ∧
      i_am_locking fs' p pid = true ∧
      read_pid fs' p = some (pid : ℤ) := by
  refine ⟨fs.update p (.content (decimalChars pid ++ ['\n'])), ?_, ?_, ?_, ?_⟩
  · simp [write_pid_to_pidfile, h]
  · simp [is_locked, FS.update]
  · simp [i_am_locking, is_locked, read_pid, read_pid_from_pidfile, FS.update,
      parse_written_line pid]
  · simp [read_pid, read_pid_from_pidfile, FS.update, parse_written_line pid]

/-- Witness for C1 at a concrete filesystem, path and pid. -/
theorem claim_C1_witness :
    ∃ fs', write_pid_to_pidfile (fun _ => .absent) "somefile" 42 = .ok fs' ∧
      is_locked fs' "somefile" = true ∧
      i_am_locking fs' "somefile" 42 = true ∧
      read_pid fs' "somefile" = some (42 : ℤ) :=
  claim_C1 (fun _ => .absent) "somefile" 42 rfl

/-- C5: `read_pid_from_pidfile` returns `none` when the file cannot be
opened (absent, or any I/O failure) and when the stripped first line does
not parse as a base-10 integer; otherwise it returns the integer parsed
from the whitespace-stripped first line, ignoring every later line, so
that content `"  007\nstray extra line\n"` yields 7.  The function is
total: those conditions produce a value, never an exception. -/
theorem claim_C5 :
    (∀ fs p, fs p = .absent → read_pid_from_pidfile fs p = none) ∧
    (∀ fs p, fs p = .unreadable → read_pid_from_pidfile fs p = none) ∧
    (∀ fs p s, fs p = .content s → pyInt (pyStrip (readline s)) = none →
      read_pid_from_pidfile fs p = none) ∧
    (∀ fs p l rest, fs p = .content (l ++ '\n' :: rest) → '\n' ∉ l →
      read_pid_from_pidfile fs p = pyInt (pyStrip l)) ∧
    (∀ fs p, fs p = .content ("  007\nstray extra line\n".toList) →
      read_pid_from_pidfile fs p = some 7) := by
  refine ⟨?_, ?_, ?_, ?_, ?_⟩
  · intro fs p h
    simp [read_pid_from_pidfile, h]
  · intro fs p h
    simp [read_pid_from_pidfile, h]
  · intro fs p s h hparse
    simp [read_pid_from_pidfile, h, hparse]
  · intro fs p l rest h hnl
    simp only [read_pid_from_pidfile, h]
    rw [readline_append l rest hnl, pyStrip_append_space l '\n' (by decide)]
  · intro fs p h
    simp only [read_pid_from_pidfile, h]
    decide

/-- Witness for C5 at concrete filesystems: an unreadable file yields no
pid, and the tolerant-parsing example yields 7. -/
theorem claim_C5_witness :
    read_pid_from_pidfile (fun _ => .unreadable) "p" = none ∧
    read_pid_from_pidfile
      (fun _ => .content ("  007\nstray extra line\n".toList)) "p" = some 7 :=
  ⟨claim_C5.2.1 (fun _ => .unreadable) "p" rfl,
   claim_C5.2.2.2.2 (fun _ => .content ("  007\nstray extra line\n".toList)) "p" rfl⟩

/-- C9: of two exclusive-create attempts on an absent path — under either
serialization the atomic operation imposes — the first succeeds and the
second fails with the "file exists" condition, whatever the two pids are.
-/
theorem claim_C9 (fs : FS) (p : String) (pidA pidB : ℕ) (h : fs p = .absent) :
    (∃ fsA, write_pid_to_pidfile fs p pidA = .ok fsA ∧
      write_pid_to_pidfile fsA p pidB = .error .eexist) ∧
    (∃ fsB, write_pid_to_pidfile fs p pidB = .ok fsB ∧
      write_pid_to_pidfile fsB p pidA = .error .eexist) := by
  constructor
  · refine ⟨fs.update p (.content (decimalChars pidA ++ ['\n'])), ?_, ?_⟩
    · simp [write_pid_to_pidfile, h]
    · simp [write_pid_to_pidfile, FS.update]
  · refine ⟨fs.update p (.content (decimalChars pidB ++ ['\n'])), ?_, ?_⟩
    · simp [write_pid_to_pidfile, h]
    · simp [write_pid_to_pidfile, FS.update]

/-- Witness for C9 at a concrete filesystem, path and pids. -/
theorem claim_C9_witness :
    (∃ fsA, write_pid_to_pidfile (fun _ => .absent) "somefile" 1 = .ok fsA ∧
      write_pid_to_pidfile fsA "somefile" 2 = .error .eexist) ∧
    (∃ fsB, write_pid_to_pidfile (fun _ => .absent) "somefile" 2 = .ok fsB ∧
      write_pid_to_pidfile fsB "somefile" 1 = .error .eexist) :=
  claim_C9 (fun _ => .absent) "somefile" 1 2 rfl

/-- C6: `release` checks its preconditions in order — `NotLocked` when the
path is absent (whatever pid asks), then `NotMyLock` when the caller is
not the perceived owner; when both preconditions hold the path is deleted
and `is_locked` is false afterwards.  The deletion step treats an absent
path as already satisfied and surfaces any failure other than "not
found", which `release` propagates. -/
theorem claim_C6 :
    (∀ fs p pid osFail, fs p = .absent →
      release fs p pid osFail = .error .notLocked) ∧
    (∀ fs p pid osFail, fs p ≠ .absent → i_am_locking fs p pid = false →
      release fs p pid osFail = .error .notMyLock) ∧
    (∀ fs p pid, i_am_locking fs p pid = true →
      ∃ fs', release fs p pid false = .ok fs' ∧ is_locked fs' p = false) ∧
    (∀ fs p, fs p = .absent → remove_existing_pidfile fs p false = .ok fs) ∧
    (∀ fs p, remove_existing_pidfile fs p true = .error ()) ∧
    (∀ fs p pid, i_am_locking fs p pid = true →
      release fs p pid true = .error .osError) := by
  refine ⟨?_, ?_, ?_, ?_, ?_, ?_⟩
  · intro fs p pid osFail h
    simp [release, is_locked, h]
  · intro fs p pid osFail hne hiam
    simp [release, is_locked, hne, hiam]
  · intro fs p pid hiam
    have hl : is_locked fs p = true ∧
        decide (read_pid fs p = some (pid : ℤ)) = true := by
      simpa [i_am_locking, Bool.and_eq_true] using hiam
    have hne : fs p ≠ .absent := by
      simpa [is_locked, decide_eq_true_eq] using hl.1
    refine ⟨fs.update p .absent, ?_, ?_⟩
    · simp [release, hl.1, hiam, remove_existing_pidfile, hne]
    · simp [is_locked, FS.update]
  · intro fs p h
    simp [remove_existing_pidfile, h]
  · intro fs p
    simp [remove_existing_pidfile]
  · intro fs p pid hiam
    have hl : is_locked fs p = true ∧
        decide (read_pid fs p = some (pid : ℤ)) = true := by
      simpa [i_am_locking, Bool.and_eq_true] using hiam
    simp [release, hl.1, hiam, remove_existing_pidfile]

/-- Witness for C6 at concrete inputs: releasing an absent path reports
`NotLocked`; the true owner's release deletes the file. -/
theorem claim_C6_witness :
    release (fun _ => .absent) "somefile" 7 false = .error .notLocked ∧
    (∃ fs', release (fun _ => .content ("7\n".toList)) "somefile" 7 false = .ok fs' ∧
      is_locked fs' "somefile" = false) :=
  ⟨claim_C6.1 (fun _ => .absent) "somefile" 7 false rfl,
   claim_C6.2.2.1 (fun _ => .content ("7\n".toList)) "somefile" 7 (by decide)⟩

/-- C7: `break_lock` deletes the lock path unconditionally, with no regard
for the recorded owner; on an absent path it is a no-op that raises
nothing; a deletion failure other than "not found" propagates. -/
theorem claim_C7 :
    (∀ fs p, fs p = .absent → break_lock fs p false = .ok fs) ∧
    (∀ fs p, fs p ≠ .absent →
      break_lock fs p false = .ok (fs.update p .absent)) ∧
    (∀ fs p, break_lock fs p true = .error ()) := by
  refine ⟨?_, ?_, ?_⟩
  · intro fs p h
    simp [break_lock, remove_existing_pidfile, h]
  · intro fs p h
    simp [break_lock, remove_existing_pidfile, h]
  · intro fs p
    simp [break_lock, remove_existing_pidfile]

/-- Witness for C7 at concrete inputs: breaking an absent lock is a no-op,
and breaking an existing lock removes it whoever wrote it. -/
theorem claim_C7_witness :
    break_lock (fun _ => .absent) "somefile" false = .ok (fun _ => .absent) ∧
    break_lock (fun _ => .content ("99\n".toList)) "somefile" false =
      .ok (FS.update (fun _ => .content ("99\n".toList)) "somefile" .absent) :=
  ⟨claim_C7.1 (fun _ => .absent) "somefile" rfl,
   claim_C7.2.1 (fun _ => .content ("99\n".toList)) "somefile" (by decide)⟩

/-- C10: on an existing lock file whose readback does not equal the
caller's pid — malformed or unreadable content included, where `read_pid`
is `none` — `i_am_locking` is false for every process, `release` always
fails with `NotMyLock` (leaving the file in place, since an error raises
before any deletion), and `break_lock` does remove the file. -/
theorem claim_C10 (fs : FS) (p : String) (pid : ℕ) (hex : fs p ≠ .absent)
    (hpid : read_pid fs p ≠ some (pid : ℤ)) :
    i_am_locking fs p pid = false ∧
    (∀ osFail, release fs p pid osFail = .error .notMyLock) ∧
    break_lock fs p false = .ok (fs.update p .absent) := by
  have hiam : i_am_locking fs p pid = false := by
    simp [i_am_locking, hpid]
  refine ⟨hiam, ?_, ?_⟩
  · intro osFail
    simp [release, is_locked, hex, hiam]
  · simp [break_lock, remove_existing_pidfile, hex]

/-- Witness for C10: an unreadable lock file locks everyone out of
`release`, even pid 1 who may have created it. -/
theorem claim_C10_witness :
    i_am_locking (fun _ => .unreadable) "somefile" 1 = false ∧
    (∀ osFail, release (fun _ => .unreadable) "somefile" 1 osFail =
      .error .notMyLock) ∧
    break_lock (fun _ => .unreadable) "somefile" false =
      .ok (FS.update (fun _ => .unreadable) "somefile" .absent) :=
  claim_C10 (fun _ => .unreadable) "somefile" 1 (by decide) (by decide)

/-- C2, counterexample to the unconditional claim: with timeout exactly 0,
the first create attempt hitting "file exists", and the clock not having
advanced between the entry reading and the deadline check (two equal
`time.time()` readings), the strict `>` comparison fails, so the first
iteration does not raise `AlreadyLocked` — it sleeps 0.1 and retries. -/
theorem claim_C2_counterexample :
    (acquire (some (.int 0)) (fun _ => .errExist) (fun _ => (0 : ℚ)) 1).outcome ≠
      Outcome.alreadyLocked ∧
    (acquire (some (.int 0)) (fun _ => .errExist) (fun _ => (0 : ℚ)) 1).sleeps =
      [1 / 10] := by
  have h010 : Int.fdiv 0 10 = 0 := by decide
  constructor
  · norm_num [acquire, acquireLoop, sleepInterval, PyNum.div10, PyNum.isFalsy,
      PyNum.val, h010]
    decide
  · norm_num [acquire, acquireLoop, sleepInterval, PyNum.div10, PyNum.isFalsy,
      PyNum.val, h010]

/-- C2, amended: with timeout exactly 0 and the first create attempt
hitting "file exists", `acquire` raises `AlreadyLocked` on that first
contention with an empty sleep trace — it never reaches the sleep call —
provided the clock reading at the deadline check is strictly greater than
the reading taken on entry (the code compares with strict `>`). -/
theorem claim_C2 (t : PyNum) (ht : t.val = 0) (attempts : ℕ → CreateRes)
    (clock : ℕ → ℚ) (h0 : attempts 0 = .errExist) (hclk : clock 0 < clock 1)
    (fuel : ℕ) (hf : 0 < fuel) :
    acquire (some t) attempts clock fuel = ⟨.alreadyLocked, []⟩ := by
  obtain ⟨f, rfl⟩ : ∃ f, fuel = f + 1 := ⟨fuel - 1, by omega⟩
  simp [acquire, acquireLoop, h0, ht, hclk]

/-- Witness for C2's amended claim at a concrete zero timeout, attempt
trace and strictly advancing clock. -/
theorem claim_C2_witness :
    acquire (some (.int 0)) (fun _ => .errExist) (fun i => (i : ℚ)) 5 =
      ⟨.alreadyLocked, []⟩ :=
  claim_C2 (.int 0) (by decide) (fun _ => .errExist) (fun i => (i : ℚ)) rfl
    (by norm_num) 5 (by norm_num)

/-- C3: with a strictly positive timeout T and every create attempt
failing with "file exists", `acquire` never raises `AlreadyLocked`, and it
raises `LockTimeout` as soon as a clock reading passes the deadline
`clock 0 + T` (given fuel to reach that iteration); with no timeout it
raises neither, spinning for as much fuel as it is given. -/
theorem claim_C3 :
    (∀ (t : PyNum) (attempts : ℕ → CreateRes) (clock : ℕ → ℚ) (fuel : ℕ),
      0 < t.val → (∀ i, attempts i = .errExist) →
      (acquire (some t) attempts clock fuel).outcome ≠ .alreadyLocked) ∧
    (∀ (t : PyNum) (attempts : ℕ → CreateRes) (clock : ℕ → ℚ) (fuel : ℕ),
      0 < t.val → (∀ i, attempts i = .errExist) →
      (∃ i, i < fuel ∧ clock 0 + t.val < clock (i + 1)) →
      (acquire (some t) attempts clock fuel).outcome = .lockTimeout) ∧
    (∀ (attempts : ℕ → CreateRes) (clock : ℕ → ℚ) (fuel : ℕ),
      (∀ i, attempts i = .errExist) →
      (acquire none attempts clock fuel).outcome = .spin) := by
  refine ⟨?_, ?_, ?_⟩
  · intro t attempts clock fuel ht h
    exact acquireLoop_pos_never_already t ht _ attempts clock h fuel 0
  · intro t attempts clock fuel ht h hex
    refine acquireLoop_pos_timeout t ht _ attempts clock h fuel 0 ?_
    obtain ⟨i, hi, hc⟩ := hex
    exact ⟨i, hi, by simpa [if_pos ht] using hc⟩
  · intro attempts clock fuel h
    exact acquireLoop_none_spin _ attempts clock h fuel 0

/-- Witness for C3: a one-unit timeout against a permanently held lock
times out once the clock passes the deadline, while no timeout spins. -/
theorem claim_C3_witness :
    (acquire (some (.float 1)) (fun _ => .errExist) (fun i => (i : ℚ)) 3).outcome =
      .lockTimeout ∧
    (acquire none (fun _ => .errExist) (fun i => (i : ℚ)) 3).outcome = .spin :=
  ⟨claim_C3.2.1 (.float 1) (fun _ => .errExist) (fun i => (i : ℚ)) 3
      (by norm_num [PyNum.val]) (fun _ => rfl)
      ⟨1, by norm_num, by norm_num [PyNum.val]⟩,
   claim_C3.2.2 (fun _ => .errExist) (fun i => (i : ℚ)) 3 (fun _ => rfl)⟩

/-- C8: the moment any create attempt fails with a condition other than
"file exists", the loop raises `LockFailed` with an empty sleep trace — no
retry, no sleep — whatever the timeout and deadline. -/
theorem claim_C8 (timeout : Option PyNum) (endTime : ℚ)
    (attempts : ℕ → CreateRes) (clock : ℕ → ℚ) (i fuel : ℕ)
    (hf : 0 < fuel) (h : attempts i = .errOther) :
    acquireLoop timeout endTime attempts clock i fuel = ⟨.lockFailed, []⟩ := by
  obtain ⟨f, rfl⟩ : ∃ f, fuel = f + 1 := ⟨fuel - 1, by omega⟩
  simp [acquireLoop, h]

/-- Witness for C8 at a concrete trace whose first attempt fails with a
non-"file exists" error. -/
theorem claim_C8_witness :
    acquireLoop none 0 (fun _ => .errOther) (fun _ => 0) 0 1 =
      ⟨.lockFailed, []⟩ :=
  claim_C8 none 0 (fun _ => .errOther) (fun _ => 0) 0 1 (by norm_num) rfl

/-- C4, counterexample: with the strictly positive Python 2 integer
timeout 5, the claim says the sleep interval is timeout/10 = 1/2; the code
computes `5/10` with integer division, getting 0, which is falsy, so it
sleeps 0.1 instead. -/
theorem claim_C4_counterexample :
    (acquire (some (.int 5)) (fun _ => .errExist) (fun i => (i : ℚ)) 1).sleeps =
      [1 / 10] ∧ (1 : ℚ) / 10 ≠ (5 : ℚ) / 10 := by
  constructor
  · have h510 : Int.fdiv 5 10 = 0 := by decide
    norm_num [acquire, acquireLoop, sleepInterval, PyNum.div10, PyNum.isFalsy,
      PyNum.val, h510]
  · norm_num

/-- C4, amended: on a retry iteration (create failed with "file exists",
deadline not passed) the value slept is `sleepInterval timeout`, which is:
0.1 with no timeout; timeout/10 for a positive float timeout; the
floor-divided timeout/10 for a positive integer timeout when that quotient
is nonzero; and 0.1 again for a positive integer timeout when the quotient
floors to zero (integers 1 through 9). -/
theorem claim_C4_amended :
    ((sleepInterval none).val = 1 / 10) ∧
    (∀ q : ℚ, 0 < q → (sleepInterval (some (.float q))).val = q / 10) ∧
    (∀ n : ℤ, 0 < n → Int.fdiv n 10 ≠ 0 →
      (sleepInterval (some (.int n))).val = ((Int.fdiv n 10 : ℤ) : ℚ)) ∧
    (∀ n : ℤ, 0 < n → Int.fdiv n 10 = 0 →
      (sleepInterval (some (.int n))).val = 1 / 10) ∧
    (∀ (timeout : Option PyNum) (endTime : ℚ) (attempts : ℕ → CreateRes)
      (clock : ℕ → ℚ) (i fuel : ℕ) (t : PyNum),
      attempts i = .errExist → timeout = some t → ¬ endTime < clock (i + 1) →
      (acquireLoop timeout endTime attempts clock i (fuel + 1)).sleeps =
        (sleepInterval timeout).val ::
          (acquireLoop timeout endTime attempts clock (i + 1) fuel).sleeps) ∧
    (∀ (endTime : ℚ) (attempts : ℕ → CreateRes) (clock : ℕ → ℚ) (i fuel : ℕ),
      attempts i = .errExist →
      (acquireLoop none endTime attempts clock i (fuel + 1)).sleeps =
        (sleepInterval none).val ::
          (acquireLoop none endTime attempts clock (i + 1) fuel).sleeps) := by
  refine ⟨rfl, ?_, ?_, ?_, ?_, ?_⟩
  · intro q hq
    have hne : ¬ q / 10 = 0 := by positivity
    simp [sleepInterval, PyNum.div10, PyNum.isFalsy, PyNum.val, hne]
  · intro n hn hne
    have hne' : ¬ ((Int.fdiv n 10 : ℤ) : ℚ) = 0 := by
      exact_mod_cast hne
    simp [sleepInterval, PyNum.div10, PyNum.isFalsy, PyNum.val, hne']
  · intro n hn hz
    simp [sleepInterval, PyNum.div10, PyNum.isFalsy, PyNum.val, hz]
  · intro timeout endTime attempts clock i fuel t h htym hd
    subst htym
    simp [acquireLoop, h, hd]
  · intro endTime attempts clock i fuel h
    simp [acquireLoop, h]

/-- Witness for C4's amended claim: a float timeout of 2 sleeps 2/10,
the integer timeout 15 sleeps 1 (15/10 floor-divided), and the integer
timeout 5 sleeps 1/10. -/
theorem claim_C4_amended_witness :
    (sleepInterval (some (.float 2))).val = (2 : ℚ) / 10 ∧
    (sleepInterval (some (.int 15))).val = ((Int.fdiv 15 10 : ℤ) : ℚ) ∧
    (sleepInterval (some (.int 5))).val = 1 / 10 :=
  ⟨claim_C4_amended.2.1 2 (by norm_num),
   claim_C4_amended.2.2.1 15 (by norm_num) (by decide),
   claim_C4_amended.2.2.2.1 5 (by norm_num) (by decide)⟩

end PidLock
